/-
  Verification of the biometric-attendance server core.

  Shallow embedding of the TypeScript sources:
    - server/src/helpers/fingerprint.helper.ts   (normalizeBase64, fingerprintHashFromBase64, bufferFromBase64)
    - server/src/services/student.service.ts     (saveStudentToDb, checkIfStudentExists, removeStudentFromDb, ...)
    - server/src/services/email.service.ts       (sendEmail with SMTPS fallback)
    - server/src/interfaces/student.interface.ts / controllers (createStudent, updateStudent, deleteStudent)
    - server/src/controllers/attendance.controller.ts (addStudentToAttendance, endAttendance)

  Strings are modelled as Lean `String` / `List Char`; byte buffers as `List Nat`
  with values mod 256; JavaScript `undefined`/missing optional fields as `Option`.
-/
import Mathlib

namespace BioAttendance

/-! Section: Canonicalizer: `normalizeBase64` (fingerprint.helper.ts)

`normalizeBase64(input?: string)`:
  if (!input) return '';
  let str = input.trim();
  if (str.includes(',')) str = str.split(',')[1];
  str = str.replace(dash, '+').replace(underscore, '/');   [global regex replaces]
  str = str.replace(whitespace+, '');
  while (str.length % 4 !== 0) str += '=';
  return str;

A JS missing (`undefined`) or empty argument are both falsy and yield `''`;
we model the argument as a `String`, with `""` covering both falsy cases. -/

/-- The ASCII characters of the JS `\s` class (and of `String.prototype.trim`):
space, tab, LF, VT, FF, CR.  (JS additionally strips some rare Unicode spaces;
base64 payloads never contain those.) -/
def isWsChar (c : Char) : Bool :=
  c = ' ' || c = '\t' || c = '\n' || c = '\r' || c = Char.ofNat 11 || c = Char.ofNat 12

/-- Source `input.trim()` on the character list. -/
def trimChars (l : List Char) : List Char :=
  ((l.dropWhile isWsChar).reverse.dropWhile isWsChar).reverse

/-- Source `str.split(',')[1]`: the characters strictly between the first comma and the
second comma (or the end of the string).  Defined only used when the string
contains a comma, as in the source. -/
def commaField1 (l : List Char) : List Char :=
  (((l.dropWhile (fun c => c != ',')).drop 1).takeWhile (fun c => c != ','))

/-- The two global replacements dash to '+' and underscore to '/', per character. -/
def replUrlChar (c : Char) : Char :=
  if c = '-' then '+' else if c = '_' then '/' else c

/-- Source `while (str.length % 4 !== 0) str += '='`. -/
def padBase64 (l : List Char) : List Char :=
  l ++ List.replicate ((4 - l.length % 4) % 4) '='

/-- The body of `normalizeBase64` after the falsy-input early return. -/
def normalizeCore (l : List Char) : List Char :=
  let t0 := trimChars l
  let t1 := if t0.contains ',' then commaField1 t0 else t0
  let t2 := t1.map replUrlChar
  let t3 := t2.filter (fun c => !(isWsChar c))
  padBase64 t3

/-- Source `normalizeBase64` of fingerprint.helper.ts. -/
def normalizeBase64 (input : String) : String :=
  if input = "" then "" else String.mk (normalizeCore input.data)

/-! Section: IdentityHasher: SHA-256 (`crypto.createHash('sha256')`)

`fingerprintHashFromBase64(base64)` = hex.sha256(Buffer.from(base64, 'base64')).
We embed SHA-256 (FIPS 180-4) over byte lists, 32-bit words as `Nat` mod 2^32. -/

/-- 32-bit rotate right. -/
def rotr32 (n x : Nat) : Nat :=
  ((x >>> n) ||| (x <<< (32 - n))) % 4294967296

/-- SHA-256 round constants (fractional parts of cube roots of the first 64 primes). -/
def sha256K : List Nat :=
  [1116352408, 1899447441, 3049323471, 3921009573, 961987163, 1508970993, 2453635748, 2870763221,
   3624381080, 310598401, 607225278, 1426881987, 1925078388, 2162078206, 2614888103, 3248222580,
   3835390401, 4022224774, 264347078, 604807628, 770255983, 1249150122, 1555081692, 1996064986,
   2554220882, 2821834349, 2952996808, 3210313671, 3336571891, 3584528711, 113926993, 338241895,
   666307205, 773529912, 1294757372, 1396182291, 1695183700, 1986661051, 2177026350, 2456956037,
   2730485921, 2820302411, 3259730800, 3345764771, 3516065817, 3600352804, 4094571909, 275423344,
   430227734, 506948616, 659060556, 883997877, 958139571, 1322822218, 1537002063, 1747873779,
   1955562222, 2024104815, 2227730452, 2361852424, 2428436474, 2756734187, 3204031479, 3329325298]

/-- SHA-256 initial hash state. -/
def sha256H0 : List Nat :=
  [1779033703, 3144134277, 1013904242, 2773480762, 1359893119, 2600822924, 528734635, 1541459225]

/-- Message padding: append 0x80, zeros to 56 mod 64, then the 64-bit big-endian bit length. -/
def sha256Pad (msg : List Nat) : List Nat :=
  let L := msg.length
  let bitLen := 8 * L
  msg ++ 128 :: List.replicate ((119 - L % 64) % 64) 0 ++
    [(bitLen >>> 56) % 256, (bitLen >>> 48) % 256, (bitLen >>> 40) % 256, (bitLen >>> 32) % 256,
     (bitLen >>> 24) % 256, (bitLen >>> 16) % 256, (bitLen >>> 8) % 256, bitLen % 256]

/-- Split into 64-byte chunks (fuel-structured so it evaluates by kernel reduction;
the fuel `l.length` always suffices since each step consumes 64 bytes). -/
def chunks64Go : Nat → List Nat → List (List Nat)
  | 0, _ => []
  | _, [] => []
  | fuel + 1, x :: xs => ((x :: xs).take 64) :: chunks64Go fuel ((x :: xs).drop 64)

/-- Split into 64-byte chunks. -/
def chunks64 (l : List Nat) : List (List Nat) :=
  chunks64Go l.length l

/-- Big-endian 32-bit words of a chunk. -/
def chunkWords : List Nat → List Nat
  | b0 :: b1 :: b2 :: b3 :: rest =>
      (((b0 % 256) <<< 24) + ((b1 % 256) <<< 16) + ((b2 % 256) <<< 8) + (b3 % 256)) :: chunkWords rest
  | _ => []

/-- Extend the 16 message words to the 64-entry schedule. -/
def extendSchedule (w : List Nat) : List Nat :=
  (List.range 48).foldl
    (fun acc _ =>
      let n := acc.length
      let w15 := acc.getD (n - 15) 0
      let w2 := acc.getD (n - 2) 0
      let s0 := rotr32 7 w15 ^^^ rotr32 18 w15 ^^^ (w15 >>> 3)
      let s1 := rotr32 17 w2 ^^^ rotr32 19 w2 ^^^ (w2 >>> 10)
      acc ++ [(acc.getD (n - 16) 0 + s0 + acc.getD (n - 7) 0 + s1) % 4294967296])
    w

/-- One compression round on the 8-word working state. -/
def sha256Round (s : List Nat) (kw : Nat × Nat) : List Nat :=
  match s with
  | [a, b, c, d, e, f, g, h] =>
      let s1 := rotr32 6 e ^^^ rotr32 11 e ^^^ rotr32 25 e
      let ch := (e &&& f) ^^^ ((e ^^^ 4294967295) &&& g)
      let temp1 := (h + s1 + ch + kw.1 + kw.2) % 4294967296
      let s0 := rotr32 2 a ^^^ rotr32 13 a ^^^ rotr32 22 a
      let maj := (a &&& b) ^^^ (a &&& c) ^^^ (b &&& c)
      let temp2 := (s0 + maj) % 4294967296
      [(temp1 + temp2) % 4294967296, a, b, c, (d + temp1) % 4294967296, e, f, g]
  | _ => s

/-- Compress one 64-byte chunk into the hash state. -/
def sha256Compress (hs : List Nat) (chunk : List Nat) : List Nat :=
  let w := extendSchedule (chunkWords chunk)
  let final := (sha256K.zip w).foldl sha256Round hs
  List.zipWith (fun x y => (x + y) % 4294967296) hs final

/-- Lower-case hex digit. -/
def hexDigit (n : Nat) : Char :=
  "0123456789abcdef".data.getD (n % 16) '0'

/-- Eight hex digits of a 32-bit word, big-endian. -/
def hexWord (w : Nat) : List Char :=
  [hexDigit (w >>> 28), hexDigit (w >>> 24), hexDigit (w >>> 20), hexDigit (w >>> 16),
   hexDigit (w >>> 12), hexDigit (w >>> 8), hexDigit (w >>> 4), hexDigit w]

/-- Source `crypto.createHash('sha256').update(bytes).digest('hex')`. -/
def sha256Hex (msg : List Nat) : String :=
  String.mk ((((chunks64 (sha256Pad msg)).foldl sha256Compress sha256H0).map hexWord).flatten)

/-! Section: Base64 codec (Node `Buffer.from(s, 'base64')` and `buf.toString('base64')`) -/

/-- The standard base64 alphabet. -/
def base64Alphabet : List Char :=
  "ABCDEFGHIJKLMNOPQRSTUVWXYZabcdefghijklmnopqrstuvwxyz0123456789+/".data

/-- Encoding character for a sextet. -/
def b64EncChar (n : Nat) : Char :=
  base64Alphabet.getD (n % 64) 'A'

/-- Sextet value of a character; Node's forgiving decoder also accepts the
url-safe alphabet. `none` for characters the decoder skips (incl. `=`). -/
def b64DecChar (c : Char) : Option Nat :=
  if c = '-' then some 62
  else if c = '_' then some 63
  else
    let i := base64Alphabet.indexOf c
    if i < 64 then some i else none

/-- Recombine decoded sextets into bytes (Node drops incomplete trailing bits). -/
def sextetsToBytes : List Nat → List Nat
  | s1 :: s2 :: s3 :: s4 :: rest =>
      ((s1 % 64) <<< 2 ||| (s2 % 64) >>> 4) ::
      ((s2 % 16) <<< 4 ||| (s3 % 64) >>> 2) ::
      ((s3 % 4) <<< 6 ||| (s4 % 64)) :: sextetsToBytes rest
  | [s1, s2, s3] =>
      [(s1 % 64) <<< 2 ||| (s2 % 64) >>> 4, (s2 % 16) <<< 4 ||| (s3 % 64) >>> 2]
  | [s1, s2] => [(s1 % 64) <<< 2 ||| (s2 % 64) >>> 4]
  | _ => []

/-- Source `bufferFromBase64` of fingerprint.helper.ts: `Buffer.from(base64, 'base64')`. -/
def bufferFromBase64 (base64 : String) : List Nat :=
  sextetsToBytes (base64.data.filterMap b64DecChar)

/-- Source `fingerprintHashFromBase64` of fingerprint.helper.ts. -/
def fingerprintHashFromBase64 (base64 : String) : String :=
  sha256Hex (bufferFromBase64 base64)

/-- Standard base64 encoding of a byte list (`Buffer.toString('base64')`),
with `=` padding. -/
def base64EncodeCore : List Nat → List Char
  | [] => []
  | [b1] =>
      [b64EncChar ((b1 % 256) >>> 2), b64EncChar ((b1 % 4) <<< 4), '=', '=']
  | [b1, b2] =>
      [b64EncChar ((b1 % 256) >>> 2), b64EncChar (((b1 % 4) <<< 4) ||| ((b2 % 256) >>> 4)),
       b64EncChar ((b2 % 16) <<< 2), '=']
  | b1 :: b2 :: b3 :: rest =>
      b64EncChar ((b1 % 256) >>> 2) ::
      b64EncChar (((b1 % 4) <<< 4) ||| ((b2 % 256) >>> 4)) ::
      b64EncChar (((b2 % 16) <<< 2) ||| ((b3 % 256) >>> 6)) ::
      b64EncChar (b3 % 64) :: base64EncodeCore rest

/-- Plain base64 presentation of a byte sequence. -/
def base64Encode (bs : List Nat) : String :=
  String.mk (base64EncodeCore bs)

/-- Standard-to-url-safe alphabet map. -/
def toUrlChar (c : Char) : Char :=
  if c = '+' then '-' else if c = '/' then '_' else c

/-- base64url presentation of a byte sequence: url-safe alphabet, no padding. -/
def base64UrlEncode (bs : List Nat) : String :=
  String.mk (((base64EncodeCore bs).map toUrlChar).filter (fun c => c != '='))

/-! Section: Data model

Prisma rows, with ids as `Nat` (Prisma cuids carry no structure the claims use),
`staff_id` as `Nat`, and content fields as `String` / byte lists. -/

/-- A `Student` row (an Identity). -/
structure StudentRec where
  id : Nat
  staff_id : Nat
  name : String
  email : String
  matric_no : String
  fingerprint : List Nat
  fingerprint_hash : String
deriving DecidableEq, Repr

/-- An `Attendance` row (a Session). -/
structure AttendanceRec where
  id : Nat
  staff_id : Nat
  course_id : Nat
  name : String
  date : String
deriving DecidableEq, Repr

/-- A `StudentCourse` row (an Enrollment link). -/
structure StudentCourseRec where
  course_id : Nat
  student_id : Nat
deriving DecidableEq, Repr

/-- A `StudentAttendance` row (a Mark). -/
structure StudentAttendanceRec where
  attendance_id : Nat
  student_id : Nat
deriving DecidableEq, Repr

/-- The persistent store. `nextStudentId` models Prisma id generation. -/
structure Db where
  nextStudentId : Nat
  students : List StudentRec
  attendances : List AttendanceRec
  studentCourses : List StudentCourseRec
  studentAttendances : List StudentAttendanceRec
deriving DecidableEq, Repr

/-! Section: student.service.ts -/

/-- Source `checkIfStudentExists(matric_no, staff_id)`: `findFirst` on both fields. -/
def checkIfStudentExists (matric_no : String) (staff_id : Nat) (db : Db) : Bool :=
  db.students.any (fun s => s.matric_no == matric_no && s.staff_id == staff_id)

/-- Source `prisma.student.findFirst({ where: { fingerprint_hash } })`. -/
def findStudentByHash (db : Db) (h : String) : Option StudentRec :=
  db.students.find? (fun s => s.fingerprint_hash == h)

/-- Source `saveStudentCoursesToDb`: `createMany` with `skipDuplicates: true`. -/
def saveStudentCoursesToDb (db : Db) (links : List StudentCourseRec) : Db :=
  { db with
    studentCourses :=
      links.foldl (fun acc l => if acc.contains l then acc else acc ++ [l]) db.studentCourses }

/-- Source `removeAllStudentCoursesToDb(student_id)`: `deleteMany` on the link table. -/
def removeAllStudentCoursesToDb (db : Db) (student_id : Nat) : Db :=
  { db with studentCourses := db.studentCourses.filter (fun r => r.student_id != student_id) }

/-- Errors surfaced by the embedded operations. -/
inductive DbError
  | notFound
  | txFailed
deriving DecidableEq, Repr

/-- Source `removeStudentFromDb(studentId)`: one `prisma.$transaction` deleting dependent
Marks, dependent Enrollment links, and the Student row, in that order.  The
transaction either commits all three deletions or none; `txOk` models whether the
storage layer lets it commit (`prisma.student.delete` also throws, rolling the
transaction back, when the row is missing). -/
def removeStudentFromDb (txOk : Bool) (db : Db) (studentId : Nat) : Except DbError Db :=
  if txOk then
    if db.students.any (fun s => s.id == studentId) then
      .ok { db with
            studentAttendances := db.studentAttendances.filter (fun r => r.student_id != studentId),
            studentCourses := db.studentCourses.filter (fun r => r.student_id != studentId),
            students := db.students.filter (fun s => s.id != studentId) }
    else .error .notFound
  else .error .txFailed

/-- Source `updateStudentInDb(id, newUpdate)`: `prisma.student.update` — throws when the
row is missing, otherwise overwrites exactly the provided fields. -/
def replaceStudent (db : Db) (sid : Nat) (s2 : StudentRec) : Db :=
  { db with students := db.students.map (fun t => if t.id == sid then s2 else t) }

/-! Section: createStudent (student controller) -/

inductive CreateError
  | badRequest
  | studentAlreadyExists
  | fingerprintAlreadyExists
deriving DecidableEq, Repr

/-- Source `StudentCreateInput` of student.interface.ts; `email` is optional there
(the controller fabricates one when it is missing or empty/falsy). -/
structure CreateInput where
  name : String
  staff_id : Nat
  matric_no : String
  email : Option String
  fingerprint : String
  courses : List Nat
deriving DecidableEq, Repr

/-- Successful `createStudent` response payload plus the welcome-mail recipient. -/
structure CreateOk where
  student : StudentRec
  welcomeEmailTo : String
deriving DecidableEq, Repr

/-- Source `email || matric_no.toLowerCase() + '@student.edu'` (empty string is falsy). -/
def studentEmailOf (matric_no : String) (email : Option String) : String :=
  match email with
  | none => matric_no.toLower ++ "@student.edu"
  | some e => if e = "" then matric_no.toLower ++ "@student.edu" else e

/-- Source `createStudent` of student.interface.ts (`staff_id` as `Nat` cannot be falsy,
so the `!staff_id` guard is vacuous in the embedding). -/
def createStudent (db : Db) (inp : CreateInput) : Except CreateError CreateOk × Db :=
  if inp.matric_no = "" then (.error .badRequest, db)
  else if checkIfStudentExists inp.matric_no inp.staff_id db then
    (.error .studentAlreadyExists, db)
  else
    let normalizedFingerprint := normalizeBase64 inp.fingerprint
    let fingerprintData := bufferFromBase64 normalizedFingerprint
    let fingerprintHash := fingerprintHashFromBase64 normalizedFingerprint
    match findStudentByHash db fingerprintHash with
    | some _ => (.error .fingerprintAlreadyExists, db)
    | none =>
      let studentEmail := studentEmailOf inp.matric_no inp.email
      let newStudent : StudentRec :=
        { id := db.nextStudentId, staff_id := inp.staff_id, name := inp.name,
          email := studentEmail, matric_no := inp.matric_no,
          fingerprint := fingerprintData, fingerprint_hash := fingerprintHash }
      let db1 := { db with
                   students := db.students ++ [newStudent],
                   nextStudentId := db.nextStudentId + 1 }
      let db2 := saveStudentCoursesToDb db1
                   (inp.courses.map (fun cid => ⟨cid, newStudent.id⟩))
      (.ok { student := newStudent, welcomeEmailTo := studentEmail }, db2)

/-! Section: updateStudent (student controller) -/

/-- Source `StudentUpdateInput`: all fields optional; `courses` and `fingerprint` are
destructured away from the Prisma update payload. -/
structure UpdateInput where
  name : Option String
  email : Option String
  matric_no : Option String
  staff_id : Option Nat
  fingerprint : Option String
  courses : Option (List Nat)
deriving DecidableEq, Repr

/-- The spread `{ ...newUpdate, ...fingerprintUpdate }` applied to a row.
Note the source stores `Buffer.from(fingerprint, 'base64')` WITHOUT normalizing
and never touches `fingerprint_hash`. -/
def applyUpdate (s : StudentRec) (inp : UpdateInput) (fpData : Option (List Nat)) : StudentRec :=
  { s with
    name := inp.name.getD s.name,
    email := inp.email.getD s.email,
    matric_no := inp.matric_no.getD s.matric_no,
    staff_id := inp.staff_id.getD s.staff_id,
    fingerprint := fpData.getD s.fingerprint }

/-- Source `updateStudent` of student.interface.ts. -/
def updateStudent (db : Db) (sid : Nat) (inp : UpdateInput) : Except DbError StudentRec × Db :=
  let fpData : Option (List Nat) :=
    match inp.fingerprint with
    | some f => if f = "" then none else some (bufferFromBase64 f)
    | none => none
  let db1 :=
    match inp.courses with
    | some cs =>
        if cs.length > 0 then
          saveStudentCoursesToDb (removeAllStudentCoursesToDb db sid)
            (cs.map (fun cid => ⟨cid, sid⟩))
        else db
    | none => db
  match db1.students.find? (fun s => s.id == sid) with
  | none => (.error .notFound, db1)
  | some s =>
    let s2 := applyUpdate s inp fpData
    (.ok s2, replaceStudent db1 sid s2)

/-! Section: deleteStudent (student controller)

`deleteStudent` first runs `removeAllStudentCoursesToDb(id)` OUTSIDE any
transaction, then `removeStudentFromDb(id)` (the transaction).  On a transaction
failure the controller only forwards the error; the link deletion that already
committed is not rolled back. -/
def deleteStudent (txOk : Bool) (db : Db) (sid : Nat) : Except DbError Unit × Db :=
  let db1 := removeAllStudentCoursesToDb db sid
  match removeStudentFromDb txOk db1 sid with
  | .ok db2 => (.ok (), db2)
  | .error e => (.error e, db1)

/-! Section: addStudentToAttendance (attendance.controller.ts) -/

inductive MarkError
  | alreadyMarked
  | attendanceNotFound
  | studentNotFound
  | notEnrolled
deriving DecidableEq, Repr

/-- Modelled from the spec: `checkIfStudentIsMarked` lives in
services/attendance.service.ts which is not among the provided sources; per the
spec it reports whether a Mark for the (session, identity) pair exists. -/
def checkIfStudentIsMarked (db : Db) (attendance_id student_id : Nat) : Bool :=
  db.studentAttendances.any
    (fun r => r.attendance_id == attendance_id && r.student_id == student_id)

/-- Modelled from the spec: `markStudentAttendance` of
services/attendance.service.ts persists the Mark row. -/
def markStudentAttendance (db : Db) (attendance_id student_id : Nat) : Db :=
  { db with studentAttendances := db.studentAttendances ++ [⟨attendance_id, student_id⟩] }

/-- Source `addStudentToAttendance`: the marking state machine.  Check order in the
source: already-marked, then session lookup, then student lookup, then
enrollment; on success the Mark is persisted (the best-effort confirmation
email that follows never affects the result). -/
def addStudentToAttendance (db : Db) (attendance_id student_id : Nat) :
    Except MarkError Unit × Db :=
  if checkIfStudentIsMarked db attendance_id student_id then
    (.error .alreadyMarked, db)
  else
    match db.attendances.find? (fun a => a.id == attendance_id) with
    | none => (.error .attendanceNotFound, db)
    | some att =>
      match db.students.find? (fun s => s.id == student_id) with
      | none => (.error .studentNotFound, db)
      | some _ =>
        if db.studentCourses.any
            (fun r => r.student_id == student_id && r.course_id == att.course_id) then
          (.ok (), markStudentAttendance db attendance_id student_id)
        else (.error .notEnrolled, db)

/-! Section: endAttendance (attendance.controller.ts) -/

/-- Outcome of one `sendMissedAttendanceEmail` call: the boolean it resolves
with, or a thrown rejection. -/
inductive EmailOutcome
  | delivered
  | notDelivered
  | threw
deriving DecidableEq, Repr

/-- The boolean recorded for an outcome: a thrown send is caught and recorded
as `emailed: false`, without stopping the loop. -/
def emailedBool : EmailOutcome → Bool
  | .delivered => true
  | .notDelivered => false
  | .threw => false

/-- Students enrolled in a course:
`prisma.student.findMany({ where: { courses: { some: { course_id } } } })`. -/
def enrolledIn (db : Db) (course_id : Nat) : List StudentRec :=
  db.students.filter
    (fun s => db.studentCourses.any
      (fun r => r.student_id == s.id && r.course_id == course_id))

/-- The marked student ids of a session (`markedIds` Set in the source). -/
def markedFor (db : Db) (attendance_id : Nat) : List Nat :=
  (db.studentAttendances.filter (fun r => r.attendance_id == attendance_id)).map
    (fun r => r.student_id)

/-- Source `absentStudents = enrolledStudents.filter(s => !markedIds.has(s.id))`. -/
def absentees (db : Db) (attendance_id course_id : Nat) : List StudentRec :=
  (enrolledIn db course_id).filter (fun s => !((markedFor db attendance_id).contains s.id))

/-- Source `endAttendance`: computes the absentees and one `{studentId, emailed}`
outcome per absentee; `oracle` gives each student's delivery outcome. -/
def endAttendance (db : Db) (attendance_id : Nat) (oracle : Nat → EmailOutcome) :
    Except MarkError (Nat × List (Nat × Bool)) :=
  match db.attendances.find? (fun a => a.id == attendance_id) with
  | none => .error .attendanceNotFound
  | some att =>
    let absent := absentees db attendance_id att.course_id
    .ok (absent.length, absent.map (fun s => (s.id, emailedBool (oracle s.id))))

/-! Section: NotificationDispatcher (email.service.ts `sendEmail`)

State: the module-level `transporter` binding (`active`) and whether
`fallbackTransporter` is non-null (`fallbackCreated`).  A `SendEnv` fixes, for
one `send` call, what `tx.sendMail` does on each transport and whether the
on-demand fallback construction (`tryCreateFallback`) verifies. -/

inductive Transport
  | primary
  | fallback
deriving DecidableEq, Repr

inductive SendOutcome
  | success
  | transientFail
  | permFail
deriving DecidableEq, Repr

structure MailerState where
  active : Transport
  fallbackCreated : Bool
deriving DecidableEq, Repr

structure SendEnv where
  attempt : Transport → SendOutcome
  fallbackVerifyOk : Bool

/-- Source `sendEmail`: returns (delivered, next state, ordered list of transports whose
`sendMail` was attempted).  On a transient failure of the active transport the
call tries the fallback exactly once (creating and verifying it if absent);
a fallback success swaps `transporter` to the fallback permanently; any
fallback failure reports non-delivery and leaves `transporter` unchanged. -/
def sendEmail (disabled : Bool) (env : SendEnv) (st : MailerState) :
    Bool × MailerState × List Transport :=
  if disabled then (false, st, [])
  else
    match env.attempt st.active with
    | .success => (true, st, [st.active])
    | .permFail => (false, st, [st.active])
    | .transientFail =>
      if st.fallbackCreated then
        match env.attempt .fallback with
        | .success => (true, { st with active := .fallback }, [st.active, .fallback])
        | _ => (false, st, [st.active, .fallback])
      else if env.fallbackVerifyOk then
        match env.attempt .fallback with
        | .success =>
            (true, { active := .fallback, fallbackCreated := true }, [st.active, .fallback])
        | _ =>
            (false, { st with fallbackCreated := true }, [st.active, .fallback])
      else (false, st, [st.active])

/-- The state after one send (used to iterate sequences of sends). -/
def stepState (env : SendEnv) (st : MailerState) : MailerState :=
  (sendEmail false env st).2.1

/-- The state after a sequence of sends. -/
def runSends (envs : List SendEnv) (st : MailerState) : MailerState :=
  envs.foldl (fun s e => stepState e s) st

/-! Section: Proof-layer definitions -/

/-- Characters left fixed by every stage of `normalizeCore` except padding:
not whitespace, not a comma, not in the url-safe alphabet. -/
def normFixedChar (c : Char) : Bool :=
  !(isWsChar c) && c != ',' && c != '-' && c != '_'

/-- The map-then-strip-whitespace middle stage of `normalizeCore`. -/
def wsFilterMap (l : List Char) : List Char :=
  (l.map replUrlChar).filter (fun c => !(isWsChar c))

/-! Section: Concrete stores and inputs used by witnesses and counterexamples -/

/-- An existing student of staff 1 with enrollment number "M1". -/
def exS1a : StudentRec :=
  { id := 1, staff_id := 1, name := "A", email := "a@x.y", matric_no := "M1",
    fingerprint := [1], fingerprint_hash := "h1" }

/-- A store already holding `exS1a`. -/
def exDb1 : Db :=
  { nextStudentId := 2, students := [exS1a], attendances := [],
    studentCourses := [], studentAttendances := [] }

/-- A create request clashing with `exS1a` on (staff, matric_no). -/
def exInp1 : CreateInput :=
  { name := "B", staff_id := 1, matric_no := "M1", email := some "b@x.y",
    fingerprint := "QUJD", courses := [] }

/-- The empty store. -/
def exDb0 : Db :=
  { nextStudentId := 1, students := [], attendances := [],
    studentCourses := [], studentAttendances := [] }

/-- A create request with no contact email. -/
def exInp10 : CreateInput :=
  { name := "Ada", staff_id := 1, matric_no := "ENG101", email := none,
    fingerprint := "QUJD", courses := [7] }

/-- Student 1 for the update scenario; its stored digest is the literal "hash-one". -/
def exS2a : StudentRec :=
  { id := 1, staff_id := 1, name := "A", email := "a@x.y", matric_no := "M1",
    fingerprint := [9, 9, 9], fingerprint_hash := "hash-one" }

/-- Student 2, whose stored digest already equals the digest of template "QUJD". -/
def exS2b : StudentRec :=
  { id := 2, staff_id := 1, name := "B", email := "b@x.y", matric_no := "M2",
    fingerprint := [65, 66, 67],
    fingerprint_hash := fingerprintHashFromBase64 (normalizeBase64 "QUJD") }

/-- Store for the update scenario. -/
def exDb2 : Db :=
  { nextStudentId := 3, students := [exS2a, exS2b], attendances := [],
    studentCourses := [], studentAttendances := [] }

/-- An update replacing student 1's template with "QUJD" (student 2's digest). -/
def exUpd2 : UpdateInput :=
  { name := none, email := none, matric_no := none, staff_id := none,
    fingerprint := some "QUJD", courses := none }

/-- A student with one enrollment link and one mark, for the deletion scenario. -/
def exS6a : StudentRec :=
  { id := 1, staff_id := 1, name := "A", email := "a@x.y", matric_no := "M1",
    fingerprint := [1], fingerprint_hash := "h1" }

/-- Store in which student 1 has an Enrollment in course 7 and a Mark in session 5. -/
def exDb6 : Db :=
  { nextStudentId := 2, students := [exS6a],
    attendances := [{ id := 5, staff_id := 1, course_id := 7, name := "S", date := "d" }],
    studentCourses := [⟨7, 1⟩], studentAttendances := [⟨5, 1⟩] }

/-- A store holding a Mark for (session 1, student 1) but no Session row and no
Student row (the session/student checks run after the already-marked check). -/
def exDb3 : Db :=
  { nextStudentId := 1, students := [], attendances := [],
    studentCourses := [], studentAttendances := [⟨1, 1⟩] }

/-- Student for the marking success scenario. -/
def exStu3 : StudentRec :=
  { id := 2, staff_id := 1, name := "S", email := "s@x.y", matric_no := "M2",
    fingerprint := [1], fingerprint_hash := "h2" }

/-- Session 1 for course 7. -/
def exAtt3 : AttendanceRec :=
  { id := 1, staff_id := 1, course_id := 7, name := "W1", date := "d" }

/-- Store where student 2 is enrolled in course 7 and session 1 is open. -/
def exDb3w : Db :=
  { nextStudentId := 3, students := [exStu3], attendances := [exAtt3],
    studentCourses := [⟨7, 2⟩], studentAttendances := [] }

/-- Students A, B, C for the session-close scenario. -/
def exStuA : StudentRec :=
  { id := 1, staff_id := 1, name := "A", email := "a@x.y", matric_no := "A1",
    fingerprint := [1], fingerprint_hash := "ha" }

def exStuB : StudentRec :=
  { id := 2, staff_id := 1, name := "B", email := "b@x.y", matric_no := "B1",
    fingerprint := [2], fingerprint_hash := "hb" }

def exStuC : StudentRec :=
  { id := 3, staff_id := 1, name := "C", email := "c@x.y", matric_no := "C1",
    fingerprint := [3], fingerprint_hash := "hc" }

/-- Store with A, B, C enrolled in course 7 and only A marked in session 1. -/
def exDb4 : Db :=
  { nextStudentId := 4, students := [exStuA, exStuB, exStuC],
    attendances := [exAtt3],
    studentCourses := [⟨7, 1⟩, ⟨7, 2⟩, ⟨7, 3⟩], studentAttendances := [⟨1, 1⟩] }

/-- Delivery oracle for the close scenario: B's notification throws, the rest deliver. -/
def exOracle4 : Nat → EmailOutcome :=
  fun n => if n = 2 then .threw else .delivered

/-- A send environment whose primary transport times out and whose fallback
verifies and delivers. -/
def exEnv5 : SendEnv :=
  { attempt := fun t => match t with
      | .primary => .transientFail
      | .fallback => .success,
    fallbackVerifyOk := true }

/-- The dispatcher's initial state: primary active, no fallback constructed. -/
def exSt5 : MailerState :=
  { active := .primary, fallbackCreated := false }

/-! Section: Canonicalizer lemmas -/

lemma dropWhile_eq_self_of {p : Char → Bool} {l : List Char}
    (h : ∀ c ∈ l, p c = false) : l.dropWhile p = l := by
  cases l with
  | nil => rfl
  | cons a t => simp [List.dropWhile, h a (List.mem_cons_self a t)]

lemma takeWhile_eq_self_of {p : Char → Bool} {l : List Char}
    (h : ∀ c ∈ l, p c = true) : l.takeWhile p = l := by
  induction l with
  | nil => rfl
  | cons a t ih =>
      rw [List.takeWhile_cons_of_pos (h a (List.mem_cons_self a t)),
          ih (fun c hc => h c (List.mem_cons_of_mem a hc))]

lemma dropWhile_append_stop {p : Char → Bool} (a : List Char) (x : Char) (b : List Char)
    (hx : p x = false) : (a ++ x :: b).dropWhile p = a.dropWhile p ++ x :: b := by
  induction a with
  | nil => simp [List.dropWhile, hx]
  | cons c t ih => by_cases hc : p c <;> simp [List.dropWhile, hc, ih]

lemma dropWhile_append_all {p : Char → Bool} {a : List Char} (b : List Char)
    (h : ∀ c ∈ a, p c = true) : (a ++ b).dropWhile p = b.dropWhile p := by
  induction a with
  | nil => rfl
  | cons c t ih =>
      simp [List.dropWhile, h c (List.mem_cons_self c t)]
      exact ih (fun d hd => h d (List.mem_cons_of_mem c hd))

lemma mem_of_mem_dropWhile {p : Char → Bool} {c : Char} {l : List Char}
    (h : c ∈ l.dropWhile p) : c ∈ l := (List.dropWhile_sublist p).subset h

lemma mem_dropWhile_of_mem {p : Char → Bool} {c : Char} {l : List Char}
    (hc : p c = false) (h : c ∈ l) : c ∈ l.dropWhile p := by
  induction l with
  | nil => cases h
  | cons a t ih =>
      by_cases ha : p a
      · simp [List.dropWhile, ha]
        rcases List.mem_cons.mp h with rfl | h2
        · rw [hc] at ha; cases ha
        · exact ih h2
      · simpa [List.dropWhile, ha] using h

lemma mem_of_mem_trimChars {c : Char} {l : List Char} (h : c ∈ trimChars l) : c ∈ l := by
  unfold trimChars at h
  rw [List.mem_reverse] at h
  replace h := mem_of_mem_dropWhile h
  rw [List.mem_reverse] at h
  exact mem_of_mem_dropWhile h

lemma mem_trimChars_of_mem {c : Char} {l : List Char}
    (hc : isWsChar c = false) (h : c ∈ l) : c ∈ trimChars l := by
  unfold trimChars
  rw [List.mem_reverse]
  exact mem_dropWhile_of_mem hc (by rw [List.mem_reverse]; exact mem_dropWhile_of_mem hc h)

lemma trimChars_eq_self_of {l : List Char}
    (h : ∀ c ∈ l, isWsChar c = false) : trimChars l = l := by
  unfold trimChars
  rw [dropWhile_eq_self_of h,
      dropWhile_eq_self_of (fun c hc => h c (List.mem_reverse.mp hc)), List.reverse_reverse]

lemma trimChars_append_comma {pre e : List Char}
    (he : ∀ c ∈ e, isWsChar c = false) :
    trimChars (pre ++ ',' :: e) = pre.dropWhile isWsChar ++ ',' :: e := by
  unfold trimChars
  rw [dropWhile_append_stop pre ',' e (by decide)]
  rw [List.reverse_append, List.reverse_cons, List.append_assoc, List.singleton_append]
  rw [dropWhile_append_stop _ ',' _ (by decide)]
  rw [dropWhile_eq_self_of (fun c hc => he c (List.mem_reverse.mp hc))]
  simp

lemma replUrl_of_ws {a : Char} (h : isWsChar a = true) : replUrlChar a = a := by
  unfold replUrlChar
  split
  · rename_i hd; rw [hd] at h; cases h
  · split
    · rename_i hu; rw [hu] at h; cases h
    · rfl

lemma wsFilterMap_dropWhile (l : List Char) :
    wsFilterMap (l.dropWhile isWsChar) = wsFilterMap l := by
  induction l with
  | nil => rfl
  | cons a t ih =>
      by_cases ha : isWsChar a
      · have : wsFilterMap (a :: t) = wsFilterMap t := by
          simp [wsFilterMap, replUrl_of_ws ha, ha]
        rw [List.dropWhile_cons_of_pos ha, ih, this]
      · rw [List.dropWhile_cons_of_neg ha]

lemma wsFilterMap_reverse (l : List Char) :
    wsFilterMap l.reverse = (wsFilterMap l).reverse := by
  simp [wsFilterMap, List.map_reverse, List.filter_reverse]

lemma wsFilterMap_trimChars (l : List Char) :
    wsFilterMap (trimChars l) = wsFilterMap l := by
  unfold trimChars
  rw [wsFilterMap_reverse, wsFilterMap_dropWhile, wsFilterMap_reverse,
      List.reverse_reverse, wsFilterMap_dropWhile]

lemma padBase64_length (l : List Char) : (padBase64 l).length % 4 = 0 := by
  simp [padBase64]
  omega

lemma padBase64_eq_self {l : List Char} (h : l.length % 4 = 0) : padBase64 l = l := by
  unfold padBase64
  have : (4 - l.length % 4) % 4 = 0 := by omega
  simp [this]

lemma mem_padBase64 {c : Char} {l : List Char} (h : c ∈ padBase64 l) :
    c ∈ l ∨ c = '=' := by
  rcases List.mem_append.mp h with h1 | h2
  · exact Or.inl h1
  · exact Or.inr (List.eq_of_mem_replicate h2)

lemma contains_eq_false_iff {α : Type} [BEq α] [LawfulBEq α] (l : List α) (c : α) :
    l.contains c = false ↔ c ∉ l := by
  rw [← Bool.not_eq_true, List.elem_iff]

/-- Unpacking `normFixedChar`. -/
lemma normFixedChar_spec {c : Char} (h : normFixedChar c = true) :
    isWsChar c = false ∧ c ≠ ',' ∧ c ≠ '-' ∧ c ≠ '_' := by
  simp only [normFixedChar, Bool.and_eq_true, Bool.not_eq_true', bne_iff_ne] at h
  exact ⟨h.1.1.1, h.1.1.2, h.1.2, h.2⟩

lemma replUrl_ne_dash (b : Char) : replUrlChar b ≠ '-' := by
  unfold replUrlChar
  split
  · decide
  · split
    · decide
    · rename_i h _; exact h

lemma replUrl_ne_underscore (b : Char) : replUrlChar b ≠ '_' := by
  unfold replUrlChar
  split
  · decide
  · split
    · decide
    · rename_i _ h; exact h

lemma replUrl_eq_comma {b : Char} (h : replUrlChar b = ',') : b = ',' := by
  unfold replUrlChar at h
  split at h
  · cases h
  · split at h
    · cases h
    · exact h

lemma map_replUrl_eq_self {l : List Char}
    (h : ∀ c ∈ l, c ≠ '-' ∧ c ≠ '_') : l.map replUrlChar = l := by
  induction l with
  | nil => rfl
  | cons a t ih =>
      have ha := h a (List.mem_cons_self a t)
      have : replUrlChar a = a := by
        unfold replUrlChar
        split
        · rename_i hd; exact absurd hd ha.1
        · split
          · rename_i hu; exact absurd hu ha.2
          · rfl
      simp only [List.map_cons, this, List.cons.injEq, true_and]
      exact ih (fun c hc => h c (List.mem_cons_of_mem a hc))

/-- Every character of a normalized string is whitespace-free, comma-free, and
outside the url-safe alphabet. -/
lemma normFixed_of_mem_normalizeCore {c : Char} {l : List Char}
    (h : c ∈ normalizeCore l) : normFixedChar c = true := by
  unfold normalizeCore at h
  rcases mem_padBase64 h with h1 | rfl
  · rcases List.mem_filter.mp h1 with ⟨h2, hws⟩
    rcases List.mem_map.mp h2 with ⟨b, hb, rfl⟩
    have hdash := replUrl_ne_dash b
    have hund := replUrl_ne_underscore b
    have hcomma : replUrlChar b ≠ ',' := by
      intro heq
      have hb2 : b = ',' := replUrl_eq_comma heq
      subst hb2
      by_cases hcon : (trimChars l).contains ','
      · simp only [hcon, if_true] at hb
        have := List.mem_takeWhile_imp hb
        simp at this
      · simp only [hcon, if_false] at hb
        exact (contains_eq_false_iff _ _).mp (Bool.of_not_eq_true hcon) hb
    simp [normFixedChar, hws, hcomma, hdash, hund]
  · decide

lemma normalizeCore_length (l : List Char) : (normalizeCore l).length % 4 = 0 :=
  padBase64_length _

/-- Strings made of `normFixedChar` characters with length divisible by 4 are
fixed points of `normalizeCore`. -/
lemma normalizeCore_fixed {l : List Char}
    (h1 : ∀ c ∈ l, normFixedChar c = true) (h4 : l.length % 4 = 0) :
    normalizeCore l = l := by
  have hws : ∀ c ∈ l, isWsChar c = false := fun c hc => (normFixedChar_spec (h1 c hc)).1
  have hcomma : ∀ c ∈ l, c ≠ ',' := fun c hc => (normFixedChar_spec (h1 c hc)).2.1
  have hdu : ∀ c ∈ l, c ≠ '-' ∧ c ≠ '_' := fun c hc =>
    ⟨(normFixedChar_spec (h1 c hc)).2.2.1, (normFixedChar_spec (h1 c hc)).2.2.2⟩
  unfold normalizeCore
  rw [trimChars_eq_self_of hws]
  have hcon : l.contains ',' = false :=
    (contains_eq_false_iff _ _).mpr (fun hm => hcomma ',' hm rfl)
  simp only [hcon, Bool.false_eq_true, if_false]
  rw [map_replUrl_eq_self hdu,
      List.filter_eq_self.mpr (fun c hc => by rw [hws c hc]; rfl),
      padBase64_eq_self h4]

/-- Source `normalizeCore` when the trimmed input contains a comma. -/
lemma normalizeCore_comma {l : List Char}
    (hcon : (trimChars l).contains ',' = true) :
    normalizeCore l = padBase64 (wsFilterMap (commaField1 (trimChars l))) := by
  simp only [normalizeCore, wsFilterMap, hcon, if_true]

/-- Source `normalizeCore` when the trimmed input contains no comma. -/
lemma normalizeCore_nocomma {l : List Char}
    (hcon : (trimChars l).contains ',' = false) :
    normalizeCore l = padBase64 (wsFilterMap (trimChars l)) := by
  simp only [normalizeCore, wsFilterMap, hcon, Bool.false_eq_true, if_false]

lemma mk_eq_empty_iff (l : List Char) : String.mk l = "" ↔ l = [] :=
  ⟨fun h => congrArg String.data h, fun h => by rw [h]⟩

lemma normalizeBase64_of_ne_empty {s : String} (hs : s ≠ "") :
    normalizeBase64 s = String.mk (normalizeCore s.data) := by
  unfold normalizeBase64
  rw [if_neg hs]

/-! Section: Base64 encoding lemmas -/

lemma getD_mem_or {α : Type} (l : List α) (i : Nat) (d : α) :
    l.getD i d ∈ l ∨ l.getD i d = d := by
  induction l generalizing i with
  | nil => right; simp
  | cons a t ih =>
      cases i with
      | zero => left; simp
      | succ j =>
          rcases ih j with h | h
          · left; simp only [List.getD_cons_succ]; exact List.mem_cons_of_mem a h
          · right; simpa using h

lemma b64EncChar_mem (n : Nat) : b64EncChar n ∈ base64Alphabet := by
  unfold b64EncChar
  rcases getD_mem_or base64Alphabet (n % 64) 'A' with h | h
  · exact h
  · rw [h]; decide

lemma alpha_normFixed : ∀ c ∈ base64Alphabet, normFixedChar c = true := by decide

lemma alpha_ne_eq : ∀ c ∈ base64Alphabet, c ≠ '=' := by decide

lemma encCore_mem : ∀ (bs : List Nat), ∀ c ∈ base64EncodeCore bs, c ∈ base64Alphabet ∨ c = '='
  | [] => by simp [base64EncodeCore]
  | [b1] => by
      intro c hc
      simp only [base64EncodeCore, List.mem_cons, List.not_mem_nil, or_false] at hc
      rcases hc with rfl | rfl | rfl | rfl
      · exact Or.inl (b64EncChar_mem _)
      · exact Or.inl (b64EncChar_mem _)
      · exact Or.inr rfl
      · exact Or.inr rfl
  | [b1, b2] => by
      intro c hc
      simp only [base64EncodeCore, List.mem_cons, List.not_mem_nil, or_false] at hc
      rcases hc with rfl | rfl | rfl | rfl
      · exact Or.inl (b64EncChar_mem _)
      · exact Or.inl (b64EncChar_mem _)
      · exact Or.inl (b64EncChar_mem _)
      · exact Or.inr rfl
  | b1 :: b2 :: b3 :: rest => by
      intro c hc
      simp only [base64EncodeCore, List.mem_cons] at hc
      rcases hc with rfl | rfl | rfl | rfl | hm
      · exact Or.inl (b64EncChar_mem _)
      · exact Or.inl (b64EncChar_mem _)
      · exact Or.inl (b64EncChar_mem _)
      · exact Or.inl (b64EncChar_mem _)
      · exact encCore_mem rest c hm

lemma encCore_len : ∀ (bs : List Nat), (base64EncodeCore bs).length % 4 = 0
  | [] => rfl
  | [_] => by simp [base64EncodeCore]
  | [_, _] => by simp [base64EncodeCore]
  | _ :: _ :: _ :: rest => by
      have ih := encCore_len rest
      simp only [base64EncodeCore, List.length_cons]
      omega

lemma encCore_split : ∀ (bs : List Nat), ∃ pre k, base64EncodeCore bs = pre ++ List.replicate k '=' ∧
    (∀ c ∈ pre, c ∈ base64Alphabet) ∧ k ≤ 3 ∧ (pre.length + k) % 4 = 0
  | [] => ⟨[], 0, rfl, by simp, by omega, rfl⟩
  | [b1] => by
      refine ⟨[b64EncChar ((b1 % 256) >>> 2), b64EncChar ((b1 % 4) <<< 4)], 2, rfl, ?_, by omega, by simp⟩
      intro c hc
      simp only [List.mem_cons, List.not_mem_nil, or_false] at hc
      rcases hc with rfl | rfl
      · exact b64EncChar_mem _
      · exact b64EncChar_mem _
  | [b1, b2] => by
      refine ⟨[b64EncChar ((b1 % 256) >>> 2), b64EncChar (((b1 % 4) <<< 4) ||| ((b2 % 256) >>> 4)),
               b64EncChar ((b2 % 16) <<< 2)], 1, rfl, ?_, by omega, by simp⟩
      intro c hc
      simp only [List.mem_cons, List.not_mem_nil, or_false] at hc
      rcases hc with rfl | rfl | rfl
      · exact b64EncChar_mem _
      · exact b64EncChar_mem _
      · exact b64EncChar_mem _
  | b1 :: b2 :: b3 :: rest => by
      obtain ⟨pre, k, heq, hmem, hk, hlen⟩ := encCore_split rest
      refine ⟨b64EncChar ((b1 % 256) >>> 2) :: b64EncChar (((b1 % 4) <<< 4) ||| ((b2 % 256) >>> 4)) ::
              b64EncChar (((b2 % 16) <<< 2) ||| ((b3 % 256) >>> 6)) :: b64EncChar (b3 % 64) :: pre,
              k, ?_, ?_, hk, ?_⟩
      · simp [base64EncodeCore, heq]
      · intro c hc
        simp only [List.mem_cons] at hc
        rcases hc with rfl | rfl | rfl | rfl | hm
        · exact b64EncChar_mem _
        · exact b64EncChar_mem _
        · exact b64EncChar_mem _
        · exact b64EncChar_mem _
        · exact hmem c hm
      · simp only [List.length_cons]
        omega

/-- Plain base64 output is a fixed point of `normalizeBase64`. -/
lemma normalize_base64Encode (bs : List Nat) :
    normalizeBase64 (base64Encode bs) = base64Encode bs := by
  by_cases h : base64Encode bs = ""
  · rw [h]; rfl
  · rw [normalizeBase64_of_ne_empty h]
    show String.mk (normalizeCore (base64EncodeCore bs)) = base64Encode bs
    have hmem : ∀ c ∈ base64EncodeCore bs, normFixedChar c = true := by
      intro c hc
      rcases encCore_mem bs c hc with hm | rfl
      · exact alpha_normFixed c hm
      · decide
    rw [normalizeCore_fixed hmem (encCore_len bs)]
    rfl

lemma dropWhile_eq_nil_of_all {p : Char → Bool} {l : List Char}
    (h : ∀ c ∈ l, p c = true) : l.dropWhile p = [] := by
  induction l with
  | nil => rfl
  | cons a t ih =>
      rw [List.dropWhile_cons_of_pos (h a (List.mem_cons_self a t))]
      exact ih (fun c hc => h c (List.mem_cons_of_mem a hc))

lemma toUrl_eq_self {c : Char} (h1 : c ≠ '+') (h2 : c ≠ '/') : toUrlChar c = c := by
  unfold toUrlChar
  rw [if_neg h1, if_neg h2]

lemma replUrl_toUrl {c : Char} (h1 : c ≠ '-') (h2 : c ≠ '_') :
    replUrlChar (toUrlChar c) = c := by
  by_cases hp : c = '+'
  · subst hp; decide
  · by_cases hs : c = '/'
    · subst hs; decide
    · rw [toUrl_eq_self hp hs]
      unfold replUrlChar
      rw [if_neg h1, if_neg h2]

lemma toUrl_alpha_props {c : Char} (hm : c ∈ base64Alphabet) :
    isWsChar (toUrlChar c) = false ∧ toUrlChar c ≠ ',' ∧ toUrlChar c ≠ '=' := by
  by_cases hp : c = '+'
  · subst hp; refine ⟨by decide, by decide, by decide⟩
  · by_cases hs : c = '/'
    · subst hs; refine ⟨by decide, by decide, by decide⟩
    · rw [toUrl_eq_self hp hs]
      have hfix := normFixedChar_spec (alpha_normFixed c hm)
      exact ⟨hfix.1, hfix.2.1, alpha_ne_eq c hm⟩

/-- Base64url presentation normalizes back to plain base64. -/
lemma normalize_base64UrlEncode (bs : List Nat) :
    normalizeBase64 (base64UrlEncode bs) = base64Encode bs := by
  obtain ⟨pre, k, heq, hmem, hk, hlen⟩ := encCore_split bs
  have hdata : ((base64EncodeCore bs).map toUrlChar).filter (fun c => c != '=')
      = pre.map toUrlChar := by
    rw [heq, List.map_append, List.map_replicate]
    have heqc : toUrlChar '=' = '=' := by decide
    rw [heqc, List.filter_append]
    have h1 : (pre.map toUrlChar).filter (fun c => c != '=') = pre.map toUrlChar := by
      apply List.filter_eq_self.mpr
      intro a ha
      rcases List.mem_map.mp ha with ⟨b, hb, rfl⟩
      have := (toUrl_alpha_props (hmem b hb)).2.2
      simpa [bne_iff_ne] using this
    have h2 : (List.replicate k '=').filter (fun c => c != '=') = [] := by
      simp [List.filter_replicate]
    rw [h1, h2, List.append_nil]
  by_cases hpre : pre = []
  · have hk0 : k = 0 := by
      subst hpre
      simp at hlen
      omega
    subst hpre
    subst hk0
    simp only [List.replicate, List.append_nil] at heq
    have h0 : String.mk ([] : List Char) = "" := rfl
    show normalizeBase64 (String.mk (((base64EncodeCore bs).map toUrlChar).filter (fun c => c != '='))) = base64Encode bs
    rw [heq]
    simp only [List.map_nil, List.filter_nil]
    rw [h0]
    have h1 : normalizeBase64 "" = "" := rfl
    rw [h1]
    unfold base64Encode
    rw [heq]
  · have hne : base64UrlEncode bs ≠ "" := by
      unfold base64UrlEncode
      intro h
      have h2 := (mk_eq_empty_iff _).mp h
      rw [hdata] at h2
      exact hpre (List.map_eq_nil_iff.mp h2)
    rw [normalizeBase64_of_ne_empty hne]
    show String.mk (normalizeCore (((base64EncodeCore bs).map toUrlChar).filter (fun c => c != '='))) = base64Encode bs
    rw [hdata]
    have hws : ∀ c ∈ pre.map toUrlChar, isWsChar c = false := by
      intro c hc
      rcases List.mem_map.mp hc with ⟨b, hb, rfl⟩
      exact (toUrl_alpha_props (hmem b hb)).1
    have htr : trimChars (pre.map toUrlChar) = pre.map toUrlChar := trimChars_eq_self_of hws
    have hcon : (trimChars (pre.map toUrlChar)).contains ',' = false := by
      rw [htr]
      apply (contains_eq_false_iff _ _).mpr
      intro hmem2
      rcases List.mem_map.mp hmem2 with ⟨b, hb, hbe⟩
      exact (toUrl_alpha_props (hmem b hb)).2.1 hbe
    rw [normalizeCore_nocomma hcon, htr]
    have hwfm : wsFilterMap (pre.map toUrlChar) = pre := by
      unfold wsFilterMap
      rw [List.map_map]
      have hmapid : pre.map (replUrlChar ∘ toUrlChar) = pre := by
        have : ∀ c ∈ pre, (replUrlChar ∘ toUrlChar) c = c := by
          intro c hc
          have hfix := normFixedChar_spec (alpha_normFixed c (hmem c hc))
          exact replUrl_toUrl hfix.2.2.1 hfix.2.2.2
        calc pre.map (replUrlChar ∘ toUrlChar) = pre.map id := List.map_congr_left this
          _ = pre := List.map_id pre
      rw [hmapid]
      apply List.filter_eq_self.mpr
      intro a ha
      rw [(normFixedChar_spec (alpha_normFixed a (hmem a ha))).1]
      rfl
    rw [hwfm]
    have hpad : padBase64 pre = pre ++ List.replicate k '=' := by
      unfold padBase64
      have : (4 - pre.length % 4) % 4 = k := by omega
      rw [this]
    rw [hpad, ← heq]
    rfl

/-- A data-URI-prefixed plain-base64 string normalizes to the plain base64. -/
lemma normalize_dataUri (bs : List Nat) (pfx : String) (hp : ',' ∉ pfx.data) :
    normalizeBase64 (pfx ++ "," ++ base64Encode bs) = base64Encode bs := by
  have hdata : (pfx ++ "," ++ base64Encode bs).data
      = pfx.data ++ ',' :: base64EncodeCore bs := by
    have h0 : (pfx ++ "," ++ base64Encode bs).data
        = (pfx.data ++ [',']) ++ base64EncodeCore bs := rfl
    rw [h0, List.append_assoc]
    rfl
  have hencfix : ∀ c ∈ base64EncodeCore bs, normFixedChar c = true := by
    intro c hc
    rcases encCore_mem bs c hc with hm | rfl
    · exact alpha_normFixed c hm
    · decide
  have hencws : ∀ c ∈ base64EncodeCore bs, isWsChar c = false :=
    fun c hc => (normFixedChar_spec (hencfix c hc)).1
  have hne : pfx ++ "," ++ base64Encode bs ≠ "" := by
    intro h
    have h2 := congrArg String.data h
    rw [hdata] at h2
    rcases List.append_eq_nil.mp h2 with ⟨_, h3⟩
    cases h3
  rw [normalizeBase64_of_ne_empty hne]
  have htrim : trimChars ((pfx ++ "," ++ base64Encode bs).data)
      = pfx.data.dropWhile isWsChar ++ ',' :: base64EncodeCore bs := by
    rw [hdata]
    exact trimChars_append_comma hencws
  have hcon : (trimChars ((pfx ++ "," ++ base64Encode bs).data)).contains ',' = true := by
    rw [htrim, List.elem_iff]
    exact List.mem_append_right _ (List.mem_cons_self _ _)
  have hcore := normalizeCore_comma hcon
  rw [hcore, htrim]
  have hqfree : ∀ c ∈ pfx.data.dropWhile isWsChar, (c != ',') = true := by
    intro c hc
    have : c ∈ pfx.data := mem_of_mem_dropWhile hc
    simp only [bne_iff_ne, ne_eq]
    intro hcc
    subst hcc
    exact hp this
  have hfield : commaField1 (pfx.data.dropWhile isWsChar ++ ',' :: base64EncodeCore bs)
      = base64EncodeCore bs := by
    unfold commaField1
    rw [dropWhile_append_stop _ ',' _ (by decide)]
    rw [dropWhile_eq_nil_of_all hqfree]
    simp only [List.nil_append, List.drop_succ_cons, List.drop_zero]
    apply takeWhile_eq_self_of
    intro c hc
    simp only [bne_iff_ne, ne_eq]
    exact (normFixedChar_spec (hencfix c hc)).2.1
  rw [hfield]
  have hwfm : wsFilterMap (base64EncodeCore bs) = base64EncodeCore bs := by
    unfold wsFilterMap
    rw [map_replUrl_eq_self (fun c hc =>
      ⟨(normFixedChar_spec (hencfix c hc)).2.2.1, (normFixedChar_spec (hencfix c hc)).2.2.2⟩)]
    apply List.filter_eq_self.mpr
    intro a ha
    rw [hencws a ha]
    rfl
  rw [hwfm, padBase64_eq_self (encCore_len bs)]
  rfl

/-! Section: Claim theorems: canonicalizer and hasher -/

/-- C7: for every byte sequence, presenting it as plain base64, as base64url, or
as a data-URI-prefixed base64 string (any comma-free prefix before the comma)
yields the same `digest(normalize(x))`: all three presentations normalize and
hash to one identical hex digest. -/
theorem c7_digest_encoding_invariance (bs : List Nat) (pfx : String)
    (hp : ',' ∉ pfx.data) :
    fingerprintHashFromBase64 (normalizeBase64 (base64UrlEncode bs))
      = fingerprintHashFromBase64 (normalizeBase64 (base64Encode bs)) ∧
    fingerprintHashFromBase64 (normalizeBase64 (pfx ++ "," ++ base64Encode bs))
      = fingerprintHashFromBase64 (normalizeBase64 (base64Encode bs)) := by
  constructor
  · rw [normalize_base64UrlEncode, normalize_base64Encode]
  · rw [normalize_dataUri bs pfx hp, normalize_base64Encode]

/-- Witness for C7 at the concrete bytes [1, 2, 3] with a png data-URI prefix. -/
theorem c7_witness :
    (',' ∉ ("data:image/png;base64" : String).data) ∧
    (fingerprintHashFromBase64 (normalizeBase64 (base64UrlEncode [1, 2, 3]))
      = fingerprintHashFromBase64 (normalizeBase64 (base64Encode [1, 2, 3])) ∧
     fingerprintHashFromBase64 (normalizeBase64 ("data:image/png;base64" ++ "," ++ base64Encode [1, 2, 3]))
      = fingerprintHashFromBase64 (normalizeBase64 (base64Encode [1, 2, 3]))) :=
  ⟨by decide, c7_digest_encoding_invariance [1, 2, 3] "data:image/png;base64" (by decide)⟩

/-- C8 counterexample: on input "a,b,c", `split(',')[1]` keeps only the field
between the first and second comma, so the result ("b===") differs from the
normalization of the entire remainder after the first comma ("b,c", which
normalizes to "c==="), refuting the claim's comma clause as stated. -/
theorem c8_counterexample : normalizeBase64 "a,b,c" ≠ normalizeBase64 "b,c" := by decide

/-- C8 (amended): missing/empty input yields the empty string; when the input
contains a comma, the result equals the normalization of the characters of the
trimmed input strictly between the first comma and the next comma (or the end)
— not of the entire remainder after the first comma; and every result has
length a multiple of 4 (achieved by right-padding with '='). -/
theorem c8_normalize_structure :
    normalizeBase64 "" = "" ∧
    (∀ s : String, ',' ∈ s.data →
      normalizeBase64 s = normalizeBase64 (String.mk (commaField1 (trimChars s.data)))) ∧
    (∀ s : String, (normalizeBase64 s).data.length % 4 = 0) := by
  refine ⟨rfl, ?_, ?_⟩
  · intro s hc
    have hs : s ≠ "" := by
      intro h
      subst h
      exact absurd hc (by decide)
    rw [normalizeBase64_of_ne_empty hs]
    have hcon : (trimChars s.data).contains ',' = true := by
      rw [List.elem_iff]
      exact mem_trimChars_of_mem (by decide) hc
    rw [normalizeCore_comma hcon]
    set seg := commaField1 (trimChars s.data) with hseg
    by_cases hsegnil : seg = []
    · rw [hsegnil]
      rfl
    · have hmkne : String.mk seg ≠ "" := fun h => hsegnil ((mk_eq_empty_iff _).mp h)
      rw [normalizeBase64_of_ne_empty hmkne]
      have hsegfree : ∀ c ∈ seg, (c != ',') = true := by
        intro c hc2
        rw [hseg] at hc2
        unfold commaField1 at hc2
        exact List.mem_takeWhile_imp (p := fun c => c != ',') hc2
      have hcon2 : (trimChars seg).contains ',' = false := by
        apply (contains_eq_false_iff _ _).mpr
        intro hmm
        have := hsegfree ',' (mem_of_mem_trimChars hmm)
        simp at this
      show String.mk (padBase64 (wsFilterMap seg)) = String.mk (normalizeCore seg)
      rw [normalizeCore_nocomma hcon2, wsFilterMap_trimChars]
  · intro s
    by_cases hs : s = ""
    · subst hs
      decide
    · rw [normalizeBase64_of_ne_empty hs]
      exact normalizeCore_length s.data

/-- Witness for C8's comma clause at the concrete input "data:x,QUJD". -/
theorem c8_witness :
    (',' ∈ ("data:x,QUJD" : String).data) ∧
    normalizeBase64 "data:x,QUJD"
      = normalizeBase64 (String.mk (commaField1 (trimChars ("data:x,QUJD" : String).data))) :=
  ⟨by decide, c8_normalize_structure.2.1 "data:x,QUJD" (by decide)⟩

/-- C9: `normalizeBase64` is idempotent — re-applying it to its own output is a
no-op, for every input string. -/
theorem c9_normalize_idempotent (s : String) :
    normalizeBase64 (normalizeBase64 s) = normalizeBase64 s := by
  by_cases hs : s = ""
  · subst hs
    rfl
  · rw [normalizeBase64_of_ne_empty hs]
    by_cases h2 : String.mk (normalizeCore s.data) = ""
    · rw [h2]
      rfl
    · rw [normalizeBase64_of_ne_empty h2]
      show String.mk (normalizeCore (normalizeCore s.data)) = String.mk (normalizeCore s.data)
      rw [normalizeCore_fixed (fun c hc => normFixed_of_mem_normalizeCore hc)
            (normalizeCore_length _)]

/-! Section: Claim theorems: enrollment creation -/

/-- C1: an enrollment-create request is rejected with the duplicate-enrollment-
number conflict whenever an Identity with the same (owner, enrollment number)
already exists; it is rejected with the duplicate-biometric conflict whenever
any Identity at all (regardless of owner) already has the same template digest
(and the first check did not already fire); in either conflict case the store's
Identities are unchanged — no new Identity is persisted. -/
theorem c1_create_dedupe (db : Db) (inp : CreateInput) (hm : inp.matric_no ≠ "") :
    (checkIfStudentExists inp.matric_no inp.staff_id db = true →
      createStudent db inp = (.error .studentAlreadyExists, db)) ∧
    (checkIfStudentExists inp.matric_no inp.staff_id db = false →
      (∃ s ∈ db.students,
        s.fingerprint_hash = fingerprintHashFromBase64 (normalizeBase64 inp.fingerprint)) →
      createStudent db inp = (.error .fingerprintAlreadyExists, db)) ∧
    ((checkIfStudentExists inp.matric_no inp.staff_id db = true ∨
      ∃ s ∈ db.students,
        s.fingerprint_hash = fingerprintHashFromBase64 (normalizeBase64 inp.fingerprint)) →
      (createStudent db inp).2.students = db.students) := by
  have h1 : checkIfStudentExists inp.matric_no inp.staff_id db = true →
      createStudent db inp = (.error .studentAlreadyExists, db) := by
    intro h
    simp only [createStudent, if_neg hm, h, if_true]
  have h2 : checkIfStudentExists inp.matric_no inp.staff_id db = false →
      (∃ s ∈ db.students,
        s.fingerprint_hash = fingerprintHashFromBase64 (normalizeBase64 inp.fingerprint)) →
      createStudent db inp = (.error .fingerprintAlreadyExists, db) := by
    intro h hex
    obtain ⟨s, hs, hhash⟩ := hex
    cases hfd : findStudentByHash db (fingerprintHashFromBase64 (normalizeBase64 inp.fingerprint)) with
    | none =>
        exfalso
        rw [findStudentByHash, List.find?_eq_none] at hfd
        have := hfd s hs
        rw [hhash] at this
        simp at this
    | some t =>
        simp only [createStudent, if_neg hm, h, Bool.false_eq_true, if_false, hfd]
  refine ⟨h1, h2, ?_⟩
  rintro (h | hex)
  · rw [h1 h]
  · by_cases hck : checkIfStudentExists inp.matric_no inp.staff_id db = true
    · rw [h1 hck]
    · rw [h2 (by simpa using hck) hex]

/-- Witness for C1: creating a second student with staff 1's existing enrollment
number "M1" is rejected and the store is unchanged. -/
theorem c1_witness :
    (exInp1.matric_no ≠ "") ∧
    checkIfStudentExists exInp1.matric_no exInp1.staff_id exDb1 = true ∧
    createStudent exDb1 exInp1 = (.error .studentAlreadyExists, exDb1) :=
  ⟨by decide, rfl, (c1_create_dedupe exDb1 exInp1 (by decide)).1 rfl⟩

/-- C10: an enrollment-create request that omits the contact email persists the
Identity with the fabricated address `matric_no.toLowerCase() + "@student.edu"`,
and the welcome notification is addressed to that fabricated address rather than
being skipped. -/
theorem c10_fabricated_email (db : Db) (inp : CreateInput)
    (hm : inp.matric_no ≠ "") (hemail : inp.email = none)
    (h1 : checkIfStudentExists inp.matric_no inp.staff_id db = false)
    (h2 : findStudentByHash db (fingerprintHashFromBase64 (normalizeBase64 inp.fingerprint)) = none) :
    ∃ out, (createStudent db inp).1 = .ok out ∧
      out.student.email = inp.matric_no.toLower ++ "@student.edu" ∧
      out.welcomeEmailTo = inp.matric_no.toLower ++ "@student.edu" ∧
      out.student ∈ (createStudent db inp).2.students := by
  simp only [createStudent, if_neg hm, h1, Bool.false_eq_true, if_false, h2]
  refine ⟨_, rfl, ?_, ?_, ?_⟩
  · simp [studentEmailOf, hemail]
  · simp [studentEmailOf, hemail]
  · show _ ∈ (saveStudentCoursesToDb _ _).students
    exact List.mem_append_right _ (List.mem_cons_self _ _)

/-- Witness for C10: creating "ENG101" with no email in the empty store yields a
student whose persisted and welcome-mail address is "eng101@student.edu". -/
theorem c10_witness :
    (exInp10.matric_no ≠ "") ∧ exInp10.email = none ∧
    checkIfStudentExists exInp10.matric_no exInp10.staff_id exDb0 = false ∧
    findStudentByHash exDb0 (fingerprintHashFromBase64 (normalizeBase64 exInp10.fingerprint)) = none ∧
    (∃ out, (createStudent exDb0 exInp10).1 = .ok out ∧
      out.student.email = exInp10.matric_no.toLower ++ "@student.edu" ∧
      out.welcomeEmailTo = exInp10.matric_no.toLower ++ "@student.edu" ∧
      out.student ∈ (createStudent exDb0 exInp10).2.students) :=
  ⟨by decide, rfl, rfl, rfl, c10_fabricated_email exDb0 exInp10 (by decide) rfl rfl rfl⟩

/-! Section: Claim theorems: profile update and deletion -/

/-- C2 (code bug): replacing student 1's template with "QUJD" while student 2
already stores exactly the digest of "QUJD" succeeds with no DuplicateBiometric
conflict, and the persisted row keeps the stale digest "hash-one" instead of the
recomputed digest of the newly stored template — contradicting the claim that
the digest is recomputed and re-checked for uniqueness on template replacement. -/
theorem c2_update_keeps_stale_digest :
    exS2b ∈ exDb2.students ∧
    exS2b.fingerprint_hash = fingerprintHashFromBase64 (normalizeBase64 "QUJD") ∧
    (updateStudent exDb2 1 exUpd2).1 = .ok { exS2a with fingerprint := bufferFromBase64 "QUJD" } ∧
    (updateStudent exDb2 1 exUpd2).2.students
      = [{ exS2a with fingerprint := bufferFromBase64 "QUJD" }, exS2b] ∧
    ({ exS2a with fingerprint := bufferFromBase64 "QUJD" } : StudentRec).fingerprint_hash
      = "hash-one" :=
  ⟨List.Mem.tail _ (List.Mem.head _), rfl, rfl, rfl, rfl⟩

/-- C6 (code bug): `deleteStudent` deletes the Enrollment links outside the
transaction before calling the transactional `removeStudentFromDb`; when the
transaction fails, the links are already gone while the Mark and the Identity
remain — a some-but-not-all deletion state the claim says is never observable.
(The inner transaction alone is atomic: on failure it changes nothing, and on
success it removes all three record kinds.) -/
theorem c6_delete_not_atomic :
    (deleteStudent false exDb6 1).1 = .error .txFailed ∧
    (deleteStudent false exDb6 1).2.studentCourses = [] ∧
    (deleteStudent false exDb6 1).2.students = [exS6a] ∧
    (deleteStudent false exDb6 1).2.studentAttendances = [⟨5, 1⟩] ∧
    removeStudentFromDb false exDb6 1 = .error .txFailed ∧
    removeStudentFromDb true exDb6 1
      = .ok { exDb6 with students := [], studentCourses := [], studentAttendances := [] } :=
  ⟨rfl, rfl, rfl, rfl, rfl, rfl⟩

/-! Section: Claim theorems: attendance marking -/

/-- C3 counterexample: in a store holding a Mark for (session 1, identity 1) but
no Session row with id 1, `mark(1, 1)` fails AlreadyMarked — the already-marked
check runs first — whereas the claimed check order (session existence first)
would produce SessionNotFound. -/
theorem c3_counterexample :
    (addStudentToAttendance exDb3 1 1).1 = .error .alreadyMarked ∧
    exDb3.attendances.find? (fun a => a.id == 1) = none ∧
    MarkError.alreadyMarked ≠ MarkError.attendanceNotFound :=
  ⟨rfl, rfl, by decide⟩

/-- C3 (amended): the preconditions are checked in the order: no Mark for
(session, identity) exists (else AlreadyMarked), session exists (else
SessionNotFound), identity exists (else IdentityNotFound), identity enrolled in
the session's course (else NotEnrolled) — the already-marked check runs FIRST,
not third — with the returned failure determined by the first failing check and
the store left unchanged on failure; a second mark of the same pair immediately
after a successful one fails AlreadyMarked and exactly one Mark exists for the
pair. -/
theorem c3_mark_state_machine (db : Db) (aid sid : Nat) :
    (checkIfStudentIsMarked db aid sid = true →
      addStudentToAttendance db aid sid = (.error .alreadyMarked, db)) ∧
    (checkIfStudentIsMarked db aid sid = false →
      db.attendances.find? (fun a => a.id == aid) = none →
      addStudentToAttendance db aid sid = (.error .attendanceNotFound, db)) ∧
    (∀ att, checkIfStudentIsMarked db aid sid = false →
      db.attendances.find? (fun a => a.id == aid) = some att →
      db.students.find? (fun s => s.id == sid) = none →
      addStudentToAttendance db aid sid = (.error .studentNotFound, db)) ∧
    (∀ att stu, checkIfStudentIsMarked db aid sid = false →
      db.attendances.find? (fun a => a.id == aid) = some att →
      db.students.find? (fun s => s.id == sid) = some stu →
      db.studentCourses.any
        (fun r => r.student_id == sid && r.course_id == att.course_id) = false →
      addStudentToAttendance db aid sid = (.error .notEnrolled, db)) ∧
    ((addStudentToAttendance db aid sid).1 = .ok () →
      (addStudentToAttendance (addStudentToAttendance db aid sid).2 aid sid
        = (.error .alreadyMarked, (addStudentToAttendance db aid sid).2) ∧
       ((addStudentToAttendance db aid sid).2.studentAttendances.filter
         (fun r => r.attendance_id == aid && r.student_id == sid)).length = 1)) := by
  refine ⟨?_, ?_, ?_, ?_, ?_⟩
  · intro h
    simp only [addStudentToAttendance, h, if_true]
  · intro h hfa
    simp only [addStudentToAttendance, h, Bool.false_eq_true, if_false, hfa]
  · intro att h hfa hfs
    simp only [addStudentToAttendance, h, Bool.false_eq_true, if_false, hfa, hfs]
  · intro att stu h hfa hfs hen
    simp only [addStudentToAttendance, h, Bool.false_eq_true, if_false, hfa, hfs, hen, if_false]
  · intro hok
    cases hmk : checkIfStudentIsMarked db aid sid with
    | true =>
        exfalso
        have : (addStudentToAttendance db aid sid).1 = .error .alreadyMarked := by
          simp only [addStudentToAttendance, hmk, if_true]
        rw [this] at hok
        cases hok
    | false =>
        cases hfa : db.attendances.find? (fun a => a.id == aid) with
        | none =>
            exfalso
            have : (addStudentToAttendance db aid sid).1 = .error .attendanceNotFound := by
              simp only [addStudentToAttendance, hmk, Bool.false_eq_true, if_false, hfa]
            rw [this] at hok
            cases hok
        | some att =>
            cases hfs : db.students.find? (fun s => s.id == sid) with
            | none =>
                exfalso
                have : (addStudentToAttendance db aid sid).1 = .error .studentNotFound := by
                  simp only [addStudentToAttendance, hmk, Bool.false_eq_true, if_false, hfa, hfs]
                rw [this] at hok
                cases hok
            | some stu =>
                cases hen : db.studentCourses.any
                    (fun r => r.student_id == sid && r.course_id == att.course_id) with
                | false =>
                    exfalso
                    have : (addStudentToAttendance db aid sid).1 = .error .notEnrolled := by
                      simp only [addStudentToAttendance, hmk, Bool.false_eq_true, if_false,
                        hfa, hfs, hen]
                    rw [this] at hok
                    cases hok
                | true =>
                    have hres : addStudentToAttendance db aid sid
                        = (.ok (), markStudentAttendance db aid sid) := by
                      simp only [addStudentToAttendance, hmk, Bool.false_eq_true, if_false,
                        hfa, hfs, hen, if_true]
                    rw [hres]
                    have hmarked2 : checkIfStudentIsMarked (markStudentAttendance db aid sid) aid sid = true := by
                      simp [checkIfStudentIsMarked, markStudentAttendance, List.any_append]
                    constructor
                    · simp only [addStudentToAttendance, hmarked2, if_true]
                    · show ((db.studentAttendances ++ [({ attendance_id := aid, student_id := sid } : StudentAttendanceRec)]).filter
                          (fun r => r.attendance_id == aid && r.student_id == sid)).length = 1
                      rw [List.filter_append]
                      have hnil : db.studentAttendances.filter
                          (fun r => r.attendance_id == aid && r.student_id == sid) = [] := by
                        apply List.filter_eq_nil_iff.mpr
                        intro r hr
                        have := List.any_eq_false.mp hmk r hr
                        simpa using this
                      rw [hnil]
                      simp

/-- Witness for C3: marking student 2 in open session 1 succeeds; an immediate
second mark fails AlreadyMarked and exactly one Mark row exists for the pair. -/
theorem c3_witness :
    (addStudentToAttendance exDb3w 1 2).1 = .ok () ∧
    (addStudentToAttendance (addStudentToAttendance exDb3w 1 2).2 1 2
      = (.error .alreadyMarked, (addStudentToAttendance exDb3w 1 2).2) ∧
     ((addStudentToAttendance exDb3w 1 2).2.studentAttendances.filter
       (fun r => r.attendance_id == 1 && r.student_id == 2)).length = 1) :=
  ⟨rfl, (c3_mark_state_machine exDb3w 1 2).2.2.2.2 rfl⟩

/-! Section: Claim theorems: session close -/

/-- C4: for every existing session, `close` computes the absentee set as exactly
the identities enrolled in the session's course minus those having a Mark for
the session, returns `absentCount` equal to the size of that set and one
per-absentee `{identityId, delivered}` outcome for each element of it — one
outcome per absentee for every delivery oracle, so a thrown delivery for one
absentee (recorded as `delivered = false`) never prevents the remaining
absentees from being processed. -/
theorem c4_close_absentees (db : Db) (aid : Nat) (oracle : Nat → EmailOutcome)
    (att : AttendanceRec)
    (hfind : db.attendances.find? (fun a => a.id == aid) = some att) :
    endAttendance db aid oracle
      = .ok ((absentees db aid att.course_id).length,
             (absentees db aid att.course_id).map (fun s => (s.id, emailedBool (oracle s.id)))) ∧
    (∀ s : StudentRec, s ∈ absentees db aid att.course_id ↔
      (s ∈ db.students ∧
       (∃ r ∈ db.studentCourses, r.student_id = s.id ∧ r.course_id = att.course_id) ∧
       ¬ ∃ r ∈ db.studentAttendances, r.attendance_id = aid ∧ r.student_id = s.id)) ∧
    (∀ oracle2 : Nat → EmailOutcome,
      ((absentees db aid att.course_id).map (fun s => (s.id, emailedBool (oracle2 s.id)))).length
        = (absentees db aid att.course_id).length ∧
      ∀ s ∈ absentees db aid att.course_id,
        (s.id, emailedBool (oracle2 s.id)) ∈
          (absentees db aid att.course_id).map (fun s => (s.id, emailedBool (oracle2 s.id)))) := by
  refine ⟨?_, ?_, ?_⟩
  · simp only [endAttendance, hfind]
  · intro s
    constructor
    · intro hs
      rcases List.mem_filter.mp hs with ⟨hen, hnm⟩
      rcases List.mem_filter.mp hen with ⟨hstu, hcrs⟩
      refine ⟨hstu, ?_, ?_⟩
      · rcases List.any_eq_true.mp hcrs with ⟨r, hr, hpr⟩
        rw [Bool.and_eq_true] at hpr
        exact ⟨r, hr, beq_iff_eq.mp hpr.1, beq_iff_eq.mp hpr.2⟩
      · rintro ⟨r, hr, hra, hrs⟩
        have hmem : s.id ∈ markedFor db aid := by
          unfold markedFor
          apply List.mem_map.mpr
          refine ⟨r, ?_, hrs⟩
          apply List.mem_filter.mpr
          exact ⟨hr, by simp [hra]⟩
        have hnm2 : s.id ∉ markedFor db aid := by simpa using hnm
        exact hnm2 hmem
    · rintro ⟨hstu, ⟨r, hr, hrs, hrc⟩, hnomark⟩
      apply List.mem_filter.mpr
      refine ⟨List.mem_filter.mpr ⟨hstu, List.any_eq_true.mpr ⟨r, hr, by simp [hrs, hrc]⟩⟩, ?_⟩
      have hncont : (markedFor db aid).contains s.id = false := by
        apply (contains_eq_false_iff _ _).mpr
        intro hmem
        rcases List.mem_map.mp hmem with ⟨r2, hr2, hr2s⟩
        rcases List.mem_filter.mp hr2 with ⟨hr2m, hr2a⟩
        exact hnomark ⟨r2, hr2m, beq_iff_eq.mp hr2a, hr2s⟩
      simpa using (contains_eq_false_iff _ _).mp hncont
  · intro oracle2
    refine ⟨List.length_map _ _, ?_⟩
    intro s hs
    exact List.mem_map.mpr ⟨s, hs, rfl⟩

/-- Witness for C4: with enrolled {A, B, C} (ids 1, 2, 3), marked {A}, and B's
notification throwing, closing session 1 reports absentCount 2 with outcomes
[(B, false), (C, true)]. -/
theorem c4_witness :
    exDb4.attendances.find? (fun a => a.id == 1) = some exAtt3 ∧
    endAttendance exDb4 1 exOracle4 = .ok (2, [(2, false), (3, true)]) := by
  have h := (c4_close_absentees exDb4 1 exOracle4 exAtt3 rfl).1
  refine ⟨rfl, ?_⟩
  rw [h]
  rfl

/-! Section: NotificationDispatcher lemmas -/

/-- With the fallback transport active, a send never attempts the primary and
leaves the fallback active. -/
lemma sendEmail_fallback_active (env : SendEnv) (st : MailerState)
    (h : st.active = .fallback) :
    Transport.primary ∉ (sendEmail false env st).2.2 ∧
    ((sendEmail false env st).2.1).active = .fallback := by
  obtain ⟨a, fc⟩ := st
  simp only [MailerState.active] at h
  subst h
  cases hatt : env.attempt Transport.fallback with
  | success => simp [sendEmail, hatt]
  | permFail => simp [sendEmail, hatt]
  | transientFail =>
      cases fc with
      | true => simp [sendEmail, hatt]
      | false =>
          cases hv : env.fallbackVerifyOk with
          | true => simp [sendEmail, hatt, hv]
          | false => simp [sendEmail, hatt, hv]

/-- Fallback-activeness is preserved by every sequence of sends. -/
lemma runSends_fallback_active : ∀ (envs : List SendEnv) (st : MailerState),
    st.active = .fallback → (runSends envs st).active = .fallback
  | [], _, h => h
  | e :: es, st, h =>
      runSends_fallback_active es (stepState e st) ((sendEmail_fallback_active e st h).2)

/-! Section: Claim theorems: notification dispatcher -/

/-- C5: a send whose primary attempt fails transiently and whose fallback
attempt succeeds reports delivery and permanently switches the active transport
to the fallback; once the fallback is active, no send (and no sequence of
sends) ever re-attempts the primary and the fallback stays active; and whenever
the fallback attempt of a send fails, that send reports non-delivery and the
next send's active transport is still the original primary. -/
theorem c5_sticky_failover (env : SendEnv) (st : MailerState) :
    (st.active = .primary → env.attempt .primary = .transientFail →
     env.attempt .fallback = .success →
     (st.fallbackCreated = true ∨ env.fallbackVerifyOk = true) →
     sendEmail false env st
       = (true, { active := .fallback, fallbackCreated := true }, [.primary, .fallback])) ∧
    (st.active = .fallback →
      Transport.primary ∉ (sendEmail false env st).2.2 ∧
      ((sendEmail false env st).2.1).active = .fallback) ∧
    (st.active = .primary → env.attempt .primary = .transientFail →
     (env.attempt .fallback ≠ .success ∨
      (st.fallbackCreated = false ∧ env.fallbackVerifyOk = false)) →
     (sendEmail false env st).1 = false ∧ ((sendEmail false env st).2.1).active = .primary) ∧
    (∀ (envs : List SendEnv) (st2 : MailerState),
      st2.active = .fallback → (runSends envs st2).active = .fallback) := by
  refine ⟨?_, sendEmail_fallback_active env st, ?_, runSends_fallback_active⟩
  · intro ha hp hf hcr
    obtain ⟨a, fc⟩ := st
    simp only [MailerState.active] at ha
    simp only [MailerState.fallbackCreated] at hcr
    subst ha
    cases fc with
    | true => simp [sendEmail, hp, hf]
    | false =>
        rcases hcr with hcr | hcr
        · cases hcr
        · simp [sendEmail, hp, hf, hcr]
  · intro ha hp hfail
    obtain ⟨a, fc⟩ := st
    simp only [MailerState.active] at ha
    simp only [MailerState.fallbackCreated] at hfail
    subst ha
    cases fc with
    | true =>
        rcases hfail with hfail | hfail
        · cases hatt : env.attempt Transport.fallback with
          | success => exact absurd hatt hfail
          | transientFail => simp [sendEmail, hp, hatt]
          | permFail => simp [sendEmail, hp, hatt]
        · exact absurd hfail.1 (by decide)
    | false =>
        cases hv : env.fallbackVerifyOk with
        | true =>
            rcases hfail with hfail | hfail
            · cases hatt : env.attempt Transport.fallback with
              | success => exact absurd hatt hfail
              | transientFail => simp [sendEmail, hp, hv, hatt]
              | permFail => simp [sendEmail, hp, hv, hatt]
            · rw [hv] at hfail
              exact absurd hfail.2 (by decide)
        | false => simp [sendEmail, hp, hv]

/-- Witness for C5: primary times out, fallback verifies and delivers — the
first send succeeds via fallback and switches permanently; the second send
never attempts the primary. -/
theorem c5_witness :
    exSt5.active = .primary ∧
    exEnv5.attempt .primary = .transientFail ∧
    exEnv5.attempt .fallback = .success ∧
    sendEmail false exEnv5 exSt5
      = (true, { active := .fallback, fallbackCreated := true }, [.primary, .fallback]) ∧
    Transport.primary ∉
      (sendEmail false exEnv5 ({ active := .fallback, fallbackCreated := true } : MailerState)).2.2 := by
  refine ⟨rfl, rfl, rfl, ?_, ?_⟩
  · exact (c5_sticky_failover exEnv5 exSt5).1 rfl rfl rfl (Or.inr rfl)
  · exact ((c5_sticky_failover exEnv5 _).2.1 rfl).1

/-! Section: evaluation checks

Concrete sanity checks of the executable embedding; the two digests match
reference values produced by an independent SHA-256 implementation. -/

example : normalizeBase64 "" = "" := by decide

example : normalizeBase64 "a,b,c" = "b===" := by decide

example : normalizeBase64 "data:image/png;base64,QUJD" = "QUJD" := by decide

example : normalizeBase64 "QUJ-_" = "QUJ+/===" := by decide

example : base64Encode [65, 66, 67] = "QUJD" := by decide

example : base64Encode [1, 2] = "AQI=" := by decide

example : base64UrlEncode [255, 254, 253] = "__79" := by decide

example : bufferFromBase64 "QUJD" = [65, 66, 67] := by decide

example : fingerprintHashFromBase64 "QUJD" = "b5d4045c3f466fa91fe2cc6abe79232a1a57cdf104f7a26e716e0a1e2789df78" := by decide

example : fingerprintHashFromBase64 "" = "e3b0c44298fc1c149afbf4c8996fb92427ae41e4649b934ca495991b7852b855" := by decide

end BioAttendance
